import Mathlib

/-!
Verification of the Alpha 2.0 liquidity-transfer core of the bn-Grid
repository, shallowly embedded in Lean 4.

The two source files are
  src/core/exchanges/binance.py          (class BinanceExchange)
  src/core/exchange/binance_adapter.py   (class BinanceAdapter)

Modelling conventions:
  - Python floats are modelled as exact rationals (ℚ).  Wall-clock time
    (`time.time()`) is a rational parameter `now`; the millisecond
    timestamp `int(time.time()*1000 + self.time_diff)` is passed in as an
    integer parameter `tsMs` since no verified property depends on it.
  - Every network request made through `self.exchange.request(...)` is
    recorded in an explicit trace (`List NetCall`), and its outcome is
    given by a `Gateway` oracle describing what the exchange would answer.
  - Python dicts holding exchange responses are modelled as structures
    with `Option` fields for the keys the code reads with `.get`.
  - Exceptions are modelled with `Except`; the mutable object state of
    each class is threaded explicitly (state-passing style).
  - The balance dict built by `fetch_funding_balance` is modelled as an
    association list in insertion order (the code never inserts the same
    key twice in one pass in a way any verified property observes).
  - Rationals carry no signed zero, so the degenerate `-0` sign of
    Python's float formatting is not modelled; no property depends on it.
-/

/-- One network request issued through the exchange gateway.
Each constructor names the sapi endpoint the code calls. -/
inductive NetCall where
  /-- GET v1/asset/get-alpha-asset -/
  | getAlphaAsset
  /-- GET v1/alpha-trade/get-exchange-info -/
  | getExchangeInfo
  /-- GET v1/alpha-trade/market/ticker-price for a symbol -/
  | tickerPrice (symbol : String)
  /-- POST v1/alpha-trade/order/place with the given parameters -/
  | placeOrder (baseAsset quoteAsset side quantity price : String)
      (timestamp : ℤ) (recvWindow : ℕ)
  deriving DecidableEq, Repr

/-- The exceptions the embedded code can raise (Python raises
`RuntimeError` / `ValueError` / whatever the gateway throws; the spec
names them FeatureDisabledError, InstrumentNotFoundError,
InvalidPriceError, GatewayError). -/
inductive XError where
  /-- RuntimeError("理财功能未启用") — savings feature disabled -/
  | featureDisabled
  /-- ValueError: no TRADING alpha symbol with the requested quote asset -/
  | instrumentNotFound (quoteAsset : String)
  /-- ValueError: ticker price is ≤ 0 -/
  | invalidPrice (symbol : String)
  /-- an exception thrown by the underlying exchange request itself -/
  | gateway (e : String)
  deriving DecidableEq, Repr

/-- One entry of the `symbols` list of the alpha exchange-info response.
Fields the code reads with `.get(key)` (which may be absent) are
`Option`; the code reads `symbol` and `baseAsset` with `[...]`, so they
are required. -/
structure SymbolInfo where
  symbol : String
  baseAsset : String
  quoteAsset : String
  status : String
  pricePrecision : Option ℕ
  quantityPrecision : Option ℕ
  deriving DecidableEq, Repr

/-- The alpha exchange-info response; the code reads
`exchange_info.get('symbols', [])`, so the key may be absent. -/
structure ExchangeInfo where
  symbols : Option (List SymbolInfo)
  deriving DecidableEq, Repr

/-- The `price` field of the ticker response as the code sees it:
absent key, present-but-falsy value (e.g. empty string), or a number. -/
inductive PriceField where
  | absent
  | empty
  | val (q : ℚ)
  deriving DecidableEq, Repr

/-- The ticker-price response. -/
structure Ticker where
  price : PriceField
  deriving DecidableEq, Repr

/-- One entry of the get-alpha-asset response list. -/
structure AssetItem where
  cexAssetCode : Option String
  alphaId : Option String
  amount : Option ℚ
  deriving DecidableEq, Repr

/-- Opaque raw response of a successful order placement. -/
abbrev OrderResp := String

/-- Oracle describing what the exchange answers to each request kind.
`Except.error` models the request raising an exception. -/
structure Gateway where
  alphaAssets : Except String (List AssetItem)
  exchangeInfo : Except String ExchangeInfo
  tickerPrice : String → Except String Ticker
  placeOrder : NetCall → Except String OrderResp

/-!  ## Precision formatting

`BinanceExchange._format_alpha_value` and
`BinanceAdapter._format_with_precision` have the identical body
`format(value, f'.{precision}f')`.  Python renders the exact value of
the float in fixed point with `precision` digits after the point,
rounding half to even, never in exponent notation. -/

/-- Round a rational to the nearest integer, ties to even —
the rounding Python's fixed-point float formatting performs on the
exact value. -/
def roundHalfEven (q : ℚ) : ℤ :=
  let n := ⌊q⌋
  let frac := q - n
  if frac < 1/2 then n
  else if 1/2 < frac then n + 1
  else if n % 2 = 0 then n else n + 1

/-- Decimal digit characters of a natural number, most significant
first, structurally recursive on a fuel argument so that the kernel can
evaluate it (`fuel ≥ 1 + log10 n` suffices; callers pass `n + 1`). -/
def natDigitsAux (n : ℕ) : ℕ → List Char
  | 0 => []
  | fuel + 1 =>
    if n < 10 then [Nat.digitChar n]
    else natDigitsAux (n / 10) fuel ++ [Nat.digitChar (n % 10)]

/-- Decimal digit characters of a natural number, most significant
first (no leading zeros except for 0 itself). -/
def natDigits (n : ℕ) : List Char :=
  natDigitsAux n (n + 1)

/-- Exactly `p` decimal digit characters of `r`, zero-padded on the
left, most significant first (keeps the `p` lowest digits of `r`). -/
def padDigits (r : ℕ) : ℕ → List Char
  | 0 => []
  | p + 1 => padDigits (r / 10) p ++ [Nat.digitChar (r % 10)]

/-- Fixed-point rendering of the scaled integer: optional minus sign,
integer digits, and — for positive precision — a point followed by
exactly `precision` zero-padded fraction digits. -/
def renderFixed (scaled : ℤ) (precision : ℕ) : List Char :=
  (if scaled < 0 then ['-'] else []) ++
    (if precision = 0 then natDigits scaled.natAbs
     else natDigits (scaled.natAbs / 10 ^ precision) ++ '.' ::
       padDigits (scaled.natAbs % 10 ^ precision) precision)

/-- Character list of `format(value, f'.{precision}f')`: round the
value scaled by `10 ^ precision` half-to-even and render fixed point. -/
def formatChars (value : ℚ) (precision : ℕ) : List Char :=
  renderFixed (roundHalfEven (value * (10 : ℚ) ^ precision)) precision

/-- `BinanceExchange._format_alpha_value(value, precision)`:
`format(value, f'.{precision}f')`. -/
def format_alpha_value (value : ℚ) (precision : ℕ) : String :=
  ⟨formatChars value precision⟩

/-- `BinanceAdapter._format_with_precision` — byte-identical body to
`_format_alpha_value`, so it is the same function. -/
def format_with_precision (value : ℚ) (precision : ℕ) : String :=
  format_alpha_value value precision

/-!  ## Instrument lookup

`BinanceExchange._get_alpha_symbol_info` scans the catalog with a
`for` loop; `BinanceAdapter._build_alpha_order` scans it with
`next(s for s in symbols if ...)`.  Both compute the first element of
`exchange_info.get('symbols', [])` satisfying
`s.get('quoteAsset') == quote_asset and s.get('status') == 'TRADING'`. -/

/-- The predicate of the scans in `_get_alpha_symbol_info` and
`_build_alpha_order`. -/
def isTradingWithQuote (quoteAsset : String) (s : SymbolInfo) : Bool :=
  s.quoteAsset == quoteAsset && s.status == "TRADING"

/-- The scan shared by both source files: the first symbol of the
catalog (in catalog order) whose quote asset matches and whose status
is TRADING. -/
def findTradingSymbol (symbols : List SymbolInfo) (quoteAsset : String) :
    Option SymbolInfo :=
  symbols.find? (isTradingWithQuote quoteAsset)

/-- Modelled from the spec (§4.1 resolveInstrument): "scans instruments
in catalog order for the first entry where `quoteAsset` matches and
`status == TRADING`" — the spec-side reference definition the source
scan is compared against. -/
def firstTradingSpec (quoteAsset : String) :
    List SymbolInfo → Option SymbolInfo
  | [] => none
  | s :: rest =>
    if s.quoteAsset = quoteAsset ∧ s.status = "TRADING" then some s
    else firstTradingSpec quoteAsset rest

/-- `symbol_info.get('quantityPrecision', 8)`. -/
def getQuantityPrecision (s : SymbolInfo) : ℕ := s.quantityPrecision.getD 8

/-- `symbol_info.get('pricePrecision', 8)`. -/
def getPricePrecision (s : SymbolInfo) : ℕ := s.pricePrecision.getD 8

/-- `float(ticker.get('price', 0) or 0)`: an absent key defaults to 0,
a present-but-falsy value (empty string) is turned into 0 by `or 0`,
and a numeric value is parsed as itself. -/
def parseTickerPrice (t : Ticker) : ℚ :=
  match t.price with
  | .absent => 0
  | .empty => 0
  | .val q => q

/-- `item.get(k)` made truthy: Python treats both a missing key and an
empty string as falsy in `item.get('cexAssetCode') or item.get('alphaId')`. -/
def truthyStr : Option String → Option String
  | some s => if s = "" then none else some s
  | none => none

/-- `asset_code = item.get('cexAssetCode') or item.get('alphaId')`. -/
def assetCodeOf (item : AssetItem) : Option String :=
  (truthyStr item.cexAssetCode).orElse fun _ => truthyStr item.alphaId

/-- The balance-building loop of `fetch_funding_balance`: skip entries
without a truthy asset code, parse `amount` (absent defaults to 0), and
keep only strictly positive amounts. -/
def parseBalances : List AssetItem → List (String × ℚ)
  | [] => []
  | item :: rest =>
    match assetCodeOf item with
    | none => parseBalances rest
    | some code =>
      let amount := item.amount.getD 0
      if 0 < amount then (code, amount) :: parseBalances rest
      else parseBalances rest

/-!  ## The 30-second exchange-info cache

`BinanceExchange._get_alpha_symbol_info` (its cache-or-fetch first
half) and `BinanceAdapter.get_alpha_exchange_info` run the identical
code over `self._alpha_exchange_cache`:

    cache = self._alpha_exchange_cache
    now = time.time()
    if cache and now - cache[0] < 30: ...use cache[1]...
    else: info = <request get-exchange-info>; self._alpha_exchange_cache = (now, info)

modelled once over the cache slot.  On a fetch exception the
assignment is never reached, so the slot keeps its old value. -/
def getExchangeInfoCached (gw : Gateway) (now : ℚ)
    (cache : Option (ℚ × ExchangeInfo)) :
    Except XError ExchangeInfo × Option (ℚ × ExchangeInfo) × List NetCall :=
  match cache with
  | some (t, info) =>
    if now - t < 30 then (.ok info, cache, [])
    else
      match gw.exchangeInfo with
      | .ok info2 => (.ok info2, some (now, info2), [.getExchangeInfo])
      | .error e => (.error (.gateway e), cache, [.getExchangeInfo])
  | none =>
    match gw.exchangeInfo with
    | .ok info2 => (.ok info2, some (now, info2), [.getExchangeInfo])
    | .error e => (.error (.gateway e), cache, [.getExchangeInfo])

/-!  ## BinanceExchange (src/core/exchanges/binance.py)

The mutable state of a `BinanceExchange` instance, as far as the
Alpha 2.0 code reads or writes it.  `enable_savings` and `cache_ttl`
come from the configuration / base class (src/core/exchanges/base.py
and factory.py are not part of the sources; their fields are carried
here as opaque state, which is all the Alpha code uses of them).
`balance_cache` also lives in the base class; `_clear_balance_cache`
assigns it `{'timestamp': 0, 'data': None}`, so its `data` is
`Option`-valued. -/
structure BnState where
  enable_savings : Bool
  cache_ttl : ℚ
  balance_cache_ts : ℚ
  balance_cache_data : Option (List (String × ℚ))
  funding_balance_cache_ts : ℚ
  funding_balance_cache_data : List (String × ℚ)
  alpha_exchange_cache : Option (ℚ × ExchangeInfo)
  deriving DecidableEq, Repr

namespace BinanceExchange

/-- `BinanceExchange._clear_balance_cache`:
`self.balance_cache = {'timestamp': 0, 'data': None}` and
`self.funding_balance_cache = {'timestamp': 0, 'data': {}}`. -/
def clear_balance_cache (s : BnState) : BnState :=
  { s with
    balance_cache_ts := 0
    balance_cache_data := none
    funding_balance_cache_ts := 0
    funding_balance_cache_data := [] }

/-- `BinanceExchange.fetch_funding_balance`.  Returns the balance map
together with the state after the call and the network requests it
issued. -/
def fetch_funding_balance (gw : Gateway) (now : ℚ) (s : BnState) :
    List (String × ℚ) × BnState × List NetCall :=
  if !s.enable_savings then ([], s, [])
  else if now - s.funding_balance_cache_ts < s.cache_ttl then
    (s.funding_balance_cache_data, s, [])
  else
    match gw.alphaAssets with
    | .ok items =>
      let balances := parseBalances items
      (balances,
       { s with
         funding_balance_cache_ts := now
         funding_balance_cache_data := balances },
       [.getAlphaAsset])
    | .error _ =>
      -- `except Exception: logger.error(...); return self.funding_balance_cache.get('data', {})`
      (s.funding_balance_cache_data, s, [.getAlphaAsset])

/-- `BinanceExchange._get_alpha_symbol_info`: serve the exchange info
from `_alpha_exchange_cache` when it is younger than 30s, otherwise
fetch it and store `(now, exchange_info)`; then scan `symbols` for the
first TRADING entry with the requested quote asset, raising ValueError
(InstrumentNotFoundError) when none matches. -/
def get_alpha_symbol_info (gw : Gateway) (now : ℚ) (s : BnState)
    (quote_asset : String) :
    Except XError SymbolInfo × BnState × List NetCall :=
  match getExchangeInfoCached gw now s.alpha_exchange_cache with
  | (.error e, cc, calls) =>
    (.error e, { s with alpha_exchange_cache := cc }, calls)
  | (.ok info, cc, calls) =>
    match findTradingSymbol (info.symbols.getD []) quote_asset with
    | some sym => (.ok sym, { s with alpha_exchange_cache := cc }, calls)
    | none =>
      (.error (.instrumentNotFound quote_asset),
       { s with alpha_exchange_cache := cc }, calls)

/-- `BinanceExchange._get_alpha_ticker_price`: a single ticker-price
request, its number parsed with `float(ticker.get('price', 0) or 0)`.
No caching and no state. -/
def get_alpha_ticker_price (gw : Gateway) (symbol : String) :
    Except XError ℚ × List NetCall :=
  match gw.tickerPrice symbol with
  | .ok ticker => (.ok (parseTickerPrice ticker), [.tickerPrice symbol])
  | .error e => (.error (.gateway e), [.tickerPrice symbol])

/-- The `params` dict of the order placement in `transfer_to_savings` /
`transfer_to_spot`, with `quantity = format(amount / price_value,
quantityPrecision)` and `price = format(price_value, pricePrecision)`
computed directly above it in the source. -/
def alphaOrderCall (info : SymbolInfo) (asset side : String)
    (amount price_value : ℚ) (tsMs : ℤ) : NetCall :=
  .placeOrder info.baseAsset asset side
    (format_alpha_value (amount / price_value) (getQuantityPrecision info))
    (format_alpha_value price_value (getPricePrecision info))
    tsMs 5000

/-- The common body of `transfer_to_savings` (side = "BUY") and
`transfer_to_spot` (side = "SELL"); the two source methods are
line-for-line identical apart from the `side` parameter and log text. -/
def transferAlpha (side : String) (gw : Gateway) (now : ℚ) (tsMs : ℤ)
    (s : BnState) (asset : String) (amount : ℚ) :
    Except XError OrderResp × BnState × List NetCall :=
  if !s.enable_savings then (.error .featureDisabled, s, [])
  else
    match get_alpha_symbol_info gw now s asset with
    | (.error e, s1, c1) => (.error e, s1, c1)
    | (.ok info, s1, c1) =>
      match get_alpha_ticker_price gw info.symbol with
      | (.error e, c2) => (.error e, s1, c1 ++ c2)
      | (.ok price_value, c2) =>
        if price_value ≤ 0 then
          (.error (.invalidPrice info.symbol), s1, c1 ++ c2)
        else
          match gw.placeOrder
              (alphaOrderCall info asset side amount price_value tsMs) with
          | .ok res =>
            (.ok res, clear_balance_cache s1,
             c1 ++ c2 ++ [alphaOrderCall info asset side amount price_value tsMs])
          | .error e =>
            (.error (.gateway e), s1,
             c1 ++ c2 ++ [alphaOrderCall info asset side amount price_value tsMs])

/-- `BinanceExchange.transfer_to_savings`: BUY `asset` via Alpha 2.0. -/
def transfer_to_savings (gw : Gateway) (now : ℚ) (tsMs : ℤ) (s : BnState)
    (asset : String) (amount : ℚ) :
    Except XError OrderResp × BnState × List NetCall :=
  transferAlpha "BUY" gw now tsMs s asset amount

/-- `BinanceExchange.transfer_to_spot`: SELL `asset` via Alpha 2.0. -/
def transfer_to_spot (gw : Gateway) (now : ℚ) (tsMs : ℤ) (s : BnState)
    (asset : String) (amount : ℚ) :
    Except XError OrderResp × BnState × List NetCall :=
  transferAlpha "SELL" gw now tsMs s asset amount

end BinanceExchange

/-!  ## BinanceAdapter (src/core/exchange/binance_adapter.py)

The adapter carries only `_alpha_exchange_cache` as Alpha-relevant
mutable state: it has no balance cache and no savings feature flag. -/
structure AdapterState where
  alpha_exchange_cache : Option (ℚ × ExchangeInfo)
  deriving DecidableEq, Repr

namespace BinanceAdapter

/-- `BinanceAdapter.get_alpha_exchange_info`: serve the cached response
when it is younger than 30s, otherwise fetch and store `(now, info)` —
the same cache-or-fetch code as `BinanceExchange._get_alpha_symbol_info`,
over the adapter's one-slot state. -/
def get_alpha_exchange_info (gw : Gateway) (now : ℚ) (s : AdapterState) :
    Except XError ExchangeInfo × AdapterState × List NetCall :=
  match getExchangeInfoCached gw now s.alpha_exchange_cache with
  | (r, cc, calls) => (r, ⟨cc⟩, calls)

/-- `BinanceAdapter.get_alpha_ticker_price` — identical body to
`BinanceExchange._get_alpha_ticker_price`. -/
def get_alpha_ticker_price (gw : Gateway) (symbol : String) :
    Except XError ℚ × List NetCall :=
  BinanceExchange.get_alpha_ticker_price gw symbol

/-- `BinanceAdapter._build_alpha_order`: resolve the exchange info
(through the 30s cache), take the first TRADING symbol with the given
quote asset (`next(...)`), fetch the ticker price, require it positive,
and return the tuple
`(baseAsset, quote_asset, formatted price, formatted quantity)` where
`quantity_value = amount / price_value`. -/
def build_alpha_order (gw : Gateway) (now : ℚ) (s : AdapterState)
    (quote_asset : String) (amount : ℚ) :
    Except XError (String × String × String × String)
      × AdapterState × List NetCall :=
  match get_alpha_exchange_info gw now s with
  | (.error e, s1, c1) => (.error e, s1, c1)
  | (.ok info, s1, c1) =>
    match findTradingSymbol (info.symbols.getD []) quote_asset with
    | none => (.error (.instrumentNotFound quote_asset), s1, c1)
    | some symbol_info =>
      match get_alpha_ticker_price gw symbol_info.symbol with
      | (.error e, c2) => (.error e, s1, c1 ++ c2)
      | (.ok price_value, c2) =>
        if price_value ≤ 0 then
          (.error (.invalidPrice symbol_info.symbol), s1, c1 ++ c2)
        else
          (.ok (symbol_info.baseAsset, quote_asset,
                format_with_precision price_value
                  (getPricePrecision symbol_info),
                format_with_precision (amount / price_value)
                  (getQuantityPrecision symbol_info)),
           s1, c1 ++ c2)

/-- The common body of the adapter's `transfer_to_funding`
(side = "BUY") and `transfer_to_spot` (side = "SELL"): build the order,
place it, and — through the `try/except` that logs and `return False` —
convert every failure into the boolean `false` instead of re-raising. -/
def transferAlpha (side : String) (gw : Gateway) (now : ℚ) (tsMs : ℤ)
    (s : AdapterState) (asset : String) (amount : ℚ) :
    Bool × AdapterState × List NetCall :=
  match build_alpha_order gw now s asset amount with
  | (.error _, s1, c1) => (false, s1, c1)
  | (.ok (base_asset, quote_asset, price, quantity), s1, c1) =>
    match gw.placeOrder
        (.placeOrder base_asset quote_asset side quantity price tsMs 5000) with
    | .ok _ =>
      (true, s1,
       c1 ++ [.placeOrder base_asset quote_asset side quantity price tsMs 5000])
    | .error _ =>
      (false, s1,
       c1 ++ [.placeOrder base_asset quote_asset side quantity price tsMs 5000])

/-- `BinanceAdapter.transfer_to_funding`: BUY via Alpha 2.0, returning
`True` on success and `False` on any failure. -/
def transfer_to_funding (gw : Gateway) (now : ℚ) (tsMs : ℤ)
    (s : AdapterState) (asset : String) (amount : ℚ) :
    Bool × AdapterState × List NetCall :=
  transferAlpha "BUY" gw now tsMs s asset amount

/-- `BinanceAdapter.transfer_to_spot`: SELL via Alpha 2.0, returning
`True` on success and `False` on any failure. -/
def transfer_to_spot (gw : Gateway) (now : ℚ) (tsMs : ℤ)
    (s : AdapterState) (asset : String) (amount : ℚ) :
    Bool × AdapterState × List NetCall :=
  transferAlpha "SELL" gw now tsMs s asset amount

/-- `BinanceAdapter.fetch_funding_balance`: always a single network
fetch (this class keeps no balance cache); an exception is logged and
turned into the empty dict. -/
def fetch_funding_balance (gw : Gateway) :
    List (String × ℚ) × List NetCall :=
  match gw.alphaAssets with
  | .ok items => (parseBalances items, [.getAlphaAsset])
  | .error _ => ([], [.getAlphaAsset])

end BinanceAdapter

/-!  ## Concrete fixtures used by witnesses and counterexamples -/

/-- A TRADING instrument quoted in USDT with `quantityPrecision = 4`
and `pricePrecision = 2`. -/
def symUSDT : SymbolInfo :=
  { symbol := "ALPHAUSDT"
    baseAsset := "ALPHA"
    quoteAsset := "USDT"
    status := "TRADING"
    pricePrecision := some 2
    quantityPrecision := some 4 }

/-- A second TRADING instrument with the same quote asset, to exercise
order-of-first-match. -/
def symUSDT2 : SymbolInfo :=
  { symbol := "BETAUSDT"
    baseAsset := "BETA"
    quoteAsset := "USDT"
    status := "TRADING"
    pricePrecision := some 3
    quantityPrecision := some 5 }

/-- An instrument with matching quote asset but non-TRADING status. -/
def symHalted : SymbolInfo :=
  { symbol := "GAMMAUSDT"
    baseAsset := "GAMMA"
    quoteAsset := "USDT"
    status := "HALT"
    pricePrecision := some 2
    quantityPrecision := some 2 }

/-- An exchange-info response whose catalog holds a halted instrument
followed by two TRADING USDT instruments. -/
def infoGood : ExchangeInfo := ⟨some [symHalted, symUSDT, symUSDT2]⟩

/-- A gateway on which every request succeeds: the catalog is
`infoGood`, every ticker price is 2.5, and order placement succeeds. -/
def gwGood : Gateway :=
  { alphaAssets := .ok [⟨some "USDT", none, some 7⟩]
    exchangeInfo := .ok infoGood
    tickerPrice := fun _ => .ok ⟨.val (mkRat 5 2)⟩
    placeOrder := fun _ => .ok "filled" }

/-- A gateway on which every request raises. -/
def gwDown : Gateway :=
  { alphaAssets := .error "boom"
    exchangeInfo := .error "boom"
    tickerPrice := fun _ => .error "boom"
    placeOrder := fun _ => .error "boom" }

/-- A gateway whose ticker-price response carries an empty price
field, so the parsed price is 0. -/
def gwZeroPrice : Gateway :=
  { alphaAssets := .ok []
    exchangeInfo := .ok infoGood
    tickerPrice := fun _ => .ok ⟨.empty⟩
    placeOrder := fun _ => .ok "filled" }

/-- An initial `BinanceExchange` state: savings enabled, balance TTL
60s, warm balance caches, empty catalog cache. -/
def s0 : BnState :=
  { enable_savings := true
    cache_ttl := 60
    balance_cache_ts := 50
    balance_cache_data := some [("USDT", 123)]
    funding_balance_cache_ts := 50
    funding_balance_cache_data := [("USDT", 7)]
    alpha_exchange_cache := none }

/-- `s0` with a fresh catalog cache entry stamped at time 40. -/
def s0cached : BnState :=
  { s0 with alpha_exchange_cache := some (40, infoGood) }

/-- `s0` with the savings feature disabled. -/
def s0disabled : BnState := { s0 with enable_savings := false }

/-!  ## Helper lemmas -/

/-- The boolean scan predicate agrees with the spec's proposition. -/
theorem isTradingWithQuote_iff (q : String) (s : SymbolInfo) :
    isTradingWithQuote q s = true ↔
      (s.quoteAsset = q ∧ s.status = "TRADING") := by
  simp [isTradingWithQuote]

/-- The source scan (`find?`) computes the spec's first-match scan. -/
theorem findTradingSymbol_eq_spec (symbols : List SymbolInfo) (q : String) :
    findTradingSymbol symbols q = firstTradingSpec q symbols := by
  induction symbols with
  | nil => rfl
  | cons s rest ih =>
    cases hb : isTradingWithQuote q s with
    | true =>
      have h := (isTradingWithQuote_iff q s).mp hb
      rw [findTradingSymbol] at *
      rw [List.find?_cons_of_pos _ hb, firstTradingSpec, if_pos h]
    | false =>
      have h : ¬(s.quoteAsset = q ∧ s.status = "TRADING") := fun hh => by
        rw [(isTradingWithQuote_iff q s).mpr hh] at hb
        exact Bool.true_eq_false.mp hb
      rw [findTradingSymbol] at *
      rw [List.find?_cons_of_neg _ (by simp [hb]), firstTradingSpec, if_neg h]
      exact ih

/-- The spec scan returns `none` exactly when no catalog entry is a
TRADING instrument with the requested quote asset. -/
theorem firstTradingSpec_eq_none_iff (symbols : List SymbolInfo) (q : String) :
    firstTradingSpec q symbols = none ↔
      ∀ s ∈ symbols, ¬(s.quoteAsset = q ∧ s.status = "TRADING") := by
  induction symbols with
  | nil => simp [firstTradingSpec]
  | cons s rest ih =>
    rw [firstTradingSpec]
    by_cases h : s.quoteAsset = q ∧ s.status = "TRADING"
    · rw [if_pos h]
      constructor
      · intro hx; cases hx
      · intro hall; exact absurd h (hall s (List.mem_cons_self s rest))
    · rw [if_neg h, ih]
      constructor
      · intro hall x hx
        rcases List.mem_cons.mp hx with rfl | hx2
        · exact h
        · exact hall x hx2
      · intro hall x hx; exact hall x (List.mem_cons_of_mem s hx)

/-- The cache-or-fetch step leaves the cache slot alone or stores the
freshly fetched info stamped `now`. -/
theorem getExchangeInfoCached_cache (gw : Gateway) (now : ℚ)
    (cache : Option (ℚ × ExchangeInfo)) :
    (getExchangeInfoCached gw now cache).2.1 = cache ∨
      ∃ info2, gw.exchangeInfo = Except.ok info2 ∧
        (getExchangeInfoCached gw now cache).2.1 = some (now, info2) := by
  rcases cache with _ | ⟨t, info⟩ <;> rw [getExchangeInfoCached]
  · rcases hg : gw.exchangeInfo with e | info2
    · exact Or.inl rfl
    · exact Or.inr ⟨info2, rfl, rfl⟩
  · by_cases hf : now - t < 30
    · rw [if_pos hf]; exact Or.inl rfl
    · rw [if_neg hf]
      rcases hg : gw.exchangeInfo with e | info2
      · exact Or.inl rfl
      · exact Or.inr ⟨info2, rfl, rfl⟩

/-- The cache-or-fetch step issues no request (cache hit) or exactly
the one exchange-info request. -/
theorem getExchangeInfoCached_trace (gw : Gateway) (now : ℚ)
    (cache : Option (ℚ × ExchangeInfo)) :
    (getExchangeInfoCached gw now cache).2.2 = [] ∨
      (getExchangeInfoCached gw now cache).2.2 =
        [NetCall.getExchangeInfo] := by
  rcases cache with _ | ⟨t, info⟩ <;> rw [getExchangeInfoCached]
  · rcases hg : gw.exchangeInfo with e | info2
    · exact Or.inr rfl
    · exact Or.inr rfl
  · by_cases hf : now - t < 30
    · rw [if_pos hf]; exact Or.inl rfl
    · rw [if_neg hf]
      rcases hg : gw.exchangeInfo with e | info2
      · exact Or.inr rfl
      · exact Or.inr rfl

/-- `_get_alpha_symbol_info` only ever touches the catalog cache slot:
the rest of the instance state survives unchanged. -/
theorem get_alpha_symbol_info_state (gw : Gateway) (now : ℚ) (s : BnState)
    (q : String) :
    ∃ cc, (BinanceExchange.get_alpha_symbol_info gw now s q).2.1 =
      { s with alpha_exchange_cache := cc } := by
  rw [BinanceExchange.get_alpha_symbol_info]
  rcases h : getExchangeInfoCached gw now s.alpha_exchange_cache
    with ⟨r, cc, calls⟩
  rcases r with e | info
  · exact ⟨cc, rfl⟩
  · rcases hf : findTradingSymbol (info.symbols.getD []) q with _ | sym
    · exact ⟨cc, by simp only [hf]⟩
    · exact ⟨cc, by simp only [hf]⟩

/-- The trace of `_get_alpha_symbol_info` is empty (cache hit) or the
single exchange-info request. -/
theorem get_alpha_symbol_info_trace (gw : Gateway) (now : ℚ) (s : BnState)
    (q : String) :
    (BinanceExchange.get_alpha_symbol_info gw now s q).2.2 = [] ∨
      (BinanceExchange.get_alpha_symbol_info gw now s q).2.2 =
        [NetCall.getExchangeInfo] := by
  have htr := getExchangeInfoCached_trace gw now s.alpha_exchange_cache
  rw [BinanceExchange.get_alpha_symbol_info]
  rcases h : getExchangeInfoCached gw now s.alpha_exchange_cache
    with ⟨r, cc, calls⟩
  rw [h] at htr
  rcases r with e | info
  · exact htr
  · rcases hf : findTradingSymbol (info.symbols.getD []) q with _ | sym
    · simpa only [hf] using htr
    · simpa only [hf] using htr

/-- Exhaustive case analysis of the shared transfer body of
`transfer_to_savings` / `transfer_to_spot`: feature disabled,
instrument-resolution failure, price-fetch failure, non-positive price,
order-placement failure, or success (which is the only branch that runs
`_clear_balance_cache`). -/
theorem transferAlpha_cases (side : String) (gw : Gateway) (now : ℚ)
    (tsMs : ℤ) (s : BnState) (asset : String) (amount : ℚ) :
    (s.enable_savings = false ∧
      BinanceExchange.transferAlpha side gw now tsMs s asset amount =
        (.error .featureDisabled, s, [])) ∨
    (∃ e s1 c1, s.enable_savings = true ∧
      BinanceExchange.get_alpha_symbol_info gw now s asset =
        (.error e, s1, c1) ∧
      BinanceExchange.transferAlpha side gw now tsMs s asset amount =
        (.error e, s1, c1)) ∨
    (∃ info s1 c1 e c2, s.enable_savings = true ∧
      BinanceExchange.get_alpha_symbol_info gw now s asset =
        (.ok info, s1, c1) ∧
      BinanceExchange.get_alpha_ticker_price gw info.symbol =
        (.error e, c2) ∧
      BinanceExchange.transferAlpha side gw now tsMs s asset amount =
        (.error e, s1, c1 ++ c2)) ∨
    (∃ info s1 c1 pv c2, s.enable_savings = true ∧
      BinanceExchange.get_alpha_symbol_info gw now s asset =
        (.ok info, s1, c1) ∧
      BinanceExchange.get_alpha_ticker_price gw info.symbol =
        (.ok pv, c2) ∧
      pv ≤ 0 ∧
      BinanceExchange.transferAlpha side gw now tsMs s asset amount =
        (.error (.invalidPrice info.symbol), s1, c1 ++ c2)) ∨
    (∃ info s1 c1 pv c2 e, s.enable_savings = true ∧
      BinanceExchange.get_alpha_symbol_info gw now s asset =
        (.ok info, s1, c1) ∧
      BinanceExchange.get_alpha_ticker_price gw info.symbol =
        (.ok pv, c2) ∧
      ¬pv ≤ 0 ∧
      gw.placeOrder (BinanceExchange.alphaOrderCall info asset side amount pv tsMs) =
        .error e ∧
      BinanceExchange.transferAlpha side gw now tsMs s asset amount =
        (.error (.gateway e), s1,
         c1 ++ c2 ++ [BinanceExchange.alphaOrderCall info asset side amount pv tsMs])) ∨
    (∃ info s1 c1 pv c2 res, s.enable_savings = true ∧
      BinanceExchange.get_alpha_symbol_info gw now s asset =
        (.ok info, s1, c1) ∧
      BinanceExchange.get_alpha_ticker_price gw info.symbol =
        (.ok pv, c2) ∧
      ¬pv ≤ 0 ∧
      gw.placeOrder (BinanceExchange.alphaOrderCall info asset side amount pv tsMs) =
        .ok res ∧
      BinanceExchange.transferAlpha side gw now tsMs s asset amount =
        (.ok res, BinanceExchange.clear_balance_cache s1,
         c1 ++ c2 ++ [BinanceExchange.alphaOrderCall info asset side amount pv tsMs])) := by
  cases he : s.enable_savings with
  | false =>
    refine Or.inl ⟨rfl, ?_⟩
    rw [BinanceExchange.transferAlpha, he]
    rfl
  | true =>
    have hbody :
        BinanceExchange.transferAlpha side gw now tsMs s asset amount =
          match BinanceExchange.get_alpha_symbol_info gw now s asset with
          | (.error e, s1, c1) => (.error e, s1, c1)
          | (.ok info, s1, c1) =>
            match BinanceExchange.get_alpha_ticker_price gw info.symbol with
            | (.error e, c2) => (.error e, s1, c1 ++ c2)
            | (.ok price_value, c2) =>
              if price_value ≤ 0 then
                (.error (.invalidPrice info.symbol), s1, c1 ++ c2)
              else
                match gw.placeOrder
                    (BinanceExchange.alphaOrderCall info asset side amount price_value tsMs) with
                | .ok res =>
                  (.ok res, BinanceExchange.clear_balance_cache s1,
                   c1 ++ c2 ++
                     [BinanceExchange.alphaOrderCall info asset side amount price_value tsMs])
                | .error e =>
                  (.error (.gateway e), s1,
                   c1 ++ c2 ++
                     [BinanceExchange.alphaOrderCall info asset side amount price_value tsMs]) := by
      rw [BinanceExchange.transferAlpha, he]
      rfl
    rcases hsym : BinanceExchange.get_alpha_symbol_info gw now s asset
      with ⟨rs, s1, c1⟩
    rw [hsym] at hbody
    rcases rs with e | info
    · exact Or.inr (Or.inl ⟨e, s1, c1, rfl, rfl, hbody⟩)
    · dsimp only at hbody
      rcases htick : BinanceExchange.get_alpha_ticker_price gw info.symbol
        with ⟨rt, c2⟩
      rw [htick] at hbody
      rcases rt with e | pv
      · exact Or.inr (Or.inr (Or.inl ⟨info, s1, c1, e, c2, rfl, rfl, htick,
          hbody⟩))
      · dsimp only at hbody
        by_cases hp : pv ≤ 0
        · rw [if_pos hp] at hbody
          exact Or.inr (Or.inr (Or.inr (Or.inl ⟨info, s1, c1, pv, c2, rfl,
            rfl, htick, hp, hbody⟩)))
        · rw [if_neg hp] at hbody
          rcases hord : gw.placeOrder
              (BinanceExchange.alphaOrderCall info asset side amount pv tsMs) with e | r2
          · rw [hord] at hbody
            exact Or.inr (Or.inr (Or.inr (Or.inr (Or.inl ⟨info, s1, c1, pv,
              c2, e, rfl, rfl, htick, hp, hord, hbody⟩))))
          · rw [hord] at hbody
            exact Or.inr (Or.inr (Or.inr (Or.inr (Or.inr ⟨info, s1, c1, pv,
              c2, r2, rfl, rfl, htick, hp, hord, hbody⟩))))

/-- Exhaustive case analysis of `BinanceAdapter._build_alpha_order`:
exchange-info failure, no matching instrument, price-fetch failure,
non-positive price, or success with the formatted
`(base, quote, price, quantity)` tuple. -/
theorem build_alpha_order_cases (gw : Gateway) (now : ℚ) (s : AdapterState)
    (quote : String) (amount : ℚ) :
    (∃ e s1 c1,
      BinanceAdapter.get_alpha_exchange_info gw now s = (.error e, s1, c1) ∧
      BinanceAdapter.build_alpha_order gw now s quote amount =
        (.error e, s1, c1)) ∨
    (∃ info s1 c1,
      BinanceAdapter.get_alpha_exchange_info gw now s = (.ok info, s1, c1) ∧
      findTradingSymbol (info.symbols.getD []) quote = none ∧
      BinanceAdapter.build_alpha_order gw now s quote amount =
        (.error (.instrumentNotFound quote), s1, c1)) ∨
    (∃ info s1 c1 sym e c2,
      BinanceAdapter.get_alpha_exchange_info gw now s = (.ok info, s1, c1) ∧
      findTradingSymbol (info.symbols.getD []) quote = some sym ∧
      BinanceAdapter.get_alpha_ticker_price gw sym.symbol = (.error e, c2) ∧
      BinanceAdapter.build_alpha_order gw now s quote amount =
        (.error e, s1, c1 ++ c2)) ∨
    (∃ info s1 c1 sym pv c2,
      BinanceAdapter.get_alpha_exchange_info gw now s = (.ok info, s1, c1) ∧
      findTradingSymbol (info.symbols.getD []) quote = some sym ∧
      BinanceAdapter.get_alpha_ticker_price gw sym.symbol = (.ok pv, c2) ∧
      pv ≤ 0 ∧
      BinanceAdapter.build_alpha_order gw now s quote amount =
        (.error (.invalidPrice sym.symbol), s1, c1 ++ c2)) ∨
    (∃ info s1 c1 sym pv c2,
      BinanceAdapter.get_alpha_exchange_info gw now s = (.ok info, s1, c1) ∧
      findTradingSymbol (info.symbols.getD []) quote = some sym ∧
      BinanceAdapter.get_alpha_ticker_price gw sym.symbol = (.ok pv, c2) ∧
      ¬pv ≤ 0 ∧
      BinanceAdapter.build_alpha_order gw now s quote amount =
        (.ok (sym.baseAsset, quote,
              format_with_precision pv (getPricePrecision sym),
              format_with_precision (amount / pv) (getQuantityPrecision sym)),
         s1, c1 ++ c2)) := by
  have hbody :
      BinanceAdapter.build_alpha_order gw now s quote amount =
        match BinanceAdapter.get_alpha_exchange_info gw now s with
        | (.error e, s1, c1) => (.error e, s1, c1)
        | (.ok info, s1, c1) =>
          match findTradingSymbol (info.symbols.getD []) quote with
          | none => (.error (.instrumentNotFound quote), s1, c1)
          | some symbol_info =>
            match BinanceAdapter.get_alpha_ticker_price gw symbol_info.symbol with
            | (.error e, c2) => (.error e, s1, c1 ++ c2)
            | (.ok price_value, c2) =>
              if price_value ≤ 0 then
                (.error (.invalidPrice symbol_info.symbol), s1, c1 ++ c2)
              else
                (.ok (symbol_info.baseAsset, quote,
                      format_with_precision price_value
                        (getPricePrecision symbol_info),
                      format_with_precision (amount / price_value)
                        (getQuantityPrecision symbol_info)),
                 s1, c1 ++ c2) := rfl
  rcases hx : BinanceAdapter.get_alpha_exchange_info gw now s with ⟨r, s1, c1⟩
  rw [hx] at hbody
  rcases r with e | info
  · exact Or.inl ⟨e, s1, c1, rfl, hbody⟩
  · dsimp only at hbody
    rcases hfind : findTradingSymbol (info.symbols.getD []) quote
      with _ | sym
    · rw [hfind] at hbody
      exact Or.inr (Or.inl ⟨info, s1, c1, rfl, hfind, hbody⟩)
    · rw [hfind] at hbody
      dsimp only at hbody
      rcases htick : BinanceAdapter.get_alpha_ticker_price gw sym.symbol
        with ⟨rt, c2⟩
      rw [htick] at hbody
      rcases rt with e | pv
      · exact Or.inr (Or.inr (Or.inl ⟨info, s1, c1, sym, e, c2, rfl, hfind,
          htick, hbody⟩))
      · dsimp only at hbody
        by_cases hp : pv ≤ 0
        · rw [if_pos hp] at hbody
          exact Or.inr (Or.inr (Or.inr (Or.inl ⟨info, s1, c1, sym, pv, c2,
            rfl, hfind, htick, hp, hbody⟩)))
        · rw [if_neg hp] at hbody
          exact Or.inr (Or.inr (Or.inr (Or.inr ⟨info, s1, c1, sym, pv, c2,
            rfl, hfind, htick, hp, hbody⟩)))

/-- Exhaustive case analysis of the adapter's shared transfer body:
build failure (returns `false`), placement failure (returns `false`),
or success (returns `true`). -/
theorem adapter_transferAlpha_cases (side : String) (gw : Gateway) (now : ℚ)
    (tsMs : ℤ) (s : AdapterState) (asset : String) (amount : ℚ) :
    (∃ e s1 c1,
      BinanceAdapter.build_alpha_order gw now s asset amount =
        (.error e, s1, c1) ∧
      BinanceAdapter.transferAlpha side gw now tsMs s asset amount =
        (false, s1, c1)) ∨
    (∃ b q pr qt s1 c1 e,
      BinanceAdapter.build_alpha_order gw now s asset amount =
        (.ok (b, q, pr, qt), s1, c1) ∧
      gw.placeOrder (.placeOrder b q side qt pr tsMs 5000) = .error e ∧
      BinanceAdapter.transferAlpha side gw now tsMs s asset amount =
        (false, s1, c1 ++ [.placeOrder b q side qt pr tsMs 5000])) ∨
    (∃ b q pr qt s1 c1 r,
      BinanceAdapter.build_alpha_order gw now s asset amount =
        (.ok (b, q, pr, qt), s1, c1) ∧
      gw.placeOrder (.placeOrder b q side qt pr tsMs 5000) = .ok r ∧
      BinanceAdapter.transferAlpha side gw now tsMs s asset amount =
        (true, s1, c1 ++ [.placeOrder b q side qt pr tsMs 5000])) := by
  have hbody :
      BinanceAdapter.transferAlpha side gw now tsMs s asset amount =
        match BinanceAdapter.build_alpha_order gw now s asset amount with
        | (.error _, s1, c1) => (false, s1, c1)
        | (.ok (b, q, pr, qt), s1, c1) =>
          match gw.placeOrder (.placeOrder b q side qt pr tsMs 5000) with
          | .ok _ => (true, s1, c1 ++ [.placeOrder b q side qt pr tsMs 5000])
          | .error _ =>
            (false, s1, c1 ++ [.placeOrder b q side qt pr tsMs 5000]) := rfl
  rcases hx : BinanceAdapter.build_alpha_order gw now s asset amount
    with ⟨r, s1, c1⟩
  rw [hx] at hbody
  rcases r with e | ⟨b, q, pr, qt⟩
  · exact Or.inl ⟨e, s1, c1, rfl, hbody⟩
  · dsimp only at hbody
    rcases hord : gw.placeOrder (.placeOrder b q side qt pr tsMs 5000)
      with e | r2
    · rw [hord] at hbody
      exact Or.inr (Or.inl ⟨b, q, pr, qt, s1, c1, e, rfl, hord, hbody⟩)
    · rw [hord] at hbody
      exact Or.inr (Or.inr ⟨b, q, pr, qt, s1, c1, r2, rfl, hord, hbody⟩)

/-!  ## Claims -/

section ClaimsAndWitnesses

attribute [local semireducible] Rat.mul Rat.inv Rat.add Rat.sub

/-- C1: resolving the instrument for a settlement asset `q` returns the
first instrument in catalog order whose quoteAsset is `q` and whose
status is TRADING (the source scan equals the spec's first-match scan),
fails with InstrumentNotFoundError exactly when no such instrument
exists, and — the lookup being a pure scan — a cache-hit resolution
leaves the instance state, in particular the catalog, untouched. -/
theorem C1_resolve_first_trading :
    (∀ (symbols : List SymbolInfo) (q : String),
      findTradingSymbol symbols q = firstTradingSpec q symbols) ∧
    (∀ (symbols : List SymbolInfo) (q : String),
      firstTradingSpec q symbols = none ↔
        ∀ s ∈ symbols, ¬(s.quoteAsset = q ∧ s.status = "TRADING")) ∧
    (∀ (gw : Gateway) (now : ℚ) (s : BnState) (q : String) (t : ℚ)
        (info : ExchangeInfo),
      s.alpha_exchange_cache = some (t, info) → now - t < 30 →
      BinanceExchange.get_alpha_symbol_info gw now s q =
        ((match firstTradingSpec q (info.symbols.getD []) with
          | some sym => Except.ok sym
          | none => Except.error (XError.instrumentNotFound q)), s, [])) := by
  refine ⟨findTradingSymbol_eq_spec, firstTradingSpec_eq_none_iff, ?_⟩
  intro gw now s q t info hc hfresh
  have h1 : getExchangeInfoCached gw now s.alpha_exchange_cache =
      (.ok info, s.alpha_exchange_cache, []) := by
    rw [hc, getExchangeInfoCached, if_pos hfresh]
  rw [BinanceExchange.get_alpha_symbol_info, h1]
  dsimp only
  rw [findTradingSymbol_eq_spec]
  rcases hf : firstTradingSpec q (info.symbols.getD []) with _ | sym <;> rfl

/-- C1 witness: on a fresh cache holding `infoGood` (a halted USDT
instrument followed by two TRADING ones), resolution picks the first
TRADING one and leaves the state unchanged with no network call. -/
theorem C1_witness :
    BinanceExchange.get_alpha_symbol_info gwDown 50 s0cached "USDT" =
      (.ok symUSDT, s0cached, []) := by
  have h := C1_resolve_first_trading.2.2 gwDown 50 s0cached "USDT" 40 infoGood
    rfl (by decide)
  rw [h]
  rfl

/-- C5: `get_alpha_exchange_info` returns the cached catalog, touching
neither state nor network, exactly when `now - fetchedAt < 30`; when
stale it issues the fetch and atomically replaces the cache entry with
`(now, newInfo)`; consequently two calls from a cold cache issue one
network fetch when within 30s of each other and two otherwise. -/
theorem C5_catalog_cache_ttl :
    (∀ (gw : Gateway) (now : ℚ) (s : AdapterState) (t : ℚ)
        (info : ExchangeInfo),
      s.alpha_exchange_cache = some (t, info) →
      (BinanceAdapter.get_alpha_exchange_info gw now s =
          (.ok info, s, []) ↔ now - t < 30)) ∧
    (∀ (gw : Gateway) (now : ℚ) (s : AdapterState) (t : ℚ)
        (info info2 : ExchangeInfo),
      s.alpha_exchange_cache = some (t, info) → ¬(now - t < 30) →
      gw.exchangeInfo = .ok info2 →
      BinanceAdapter.get_alpha_exchange_info gw now s =
        (.ok info2, ⟨some (now, info2)⟩, [.getExchangeInfo])) ∧
    (∀ (gw : Gateway) (t1 t2 : ℚ) (info2 : ExchangeInfo),
      gw.exchangeInfo = .ok info2 →
      ((BinanceAdapter.get_alpha_exchange_info gw t1 ⟨none⟩).2.2 ++
        (BinanceAdapter.get_alpha_exchange_info gw t2
          (BinanceAdapter.get_alpha_exchange_info gw t1 ⟨none⟩).2.1).2.2).count
        NetCall.getExchangeInfo = (if t2 - t1 < 30 then 1 else 2)) := by
  refine ⟨?_, ?_, ?_⟩
  · intro gw now s t info hc
    constructor
    · intro heq
      by_contra hfr
      rw [BinanceAdapter.get_alpha_exchange_info, hc, getExchangeInfoCached,
        if_neg hfr] at heq
      rcases hg : gw.exchangeInfo with e | info2 <;> rw [hg] at heq <;>
        · have htr := congrArg (fun x => x.2.2) heq
          simp at htr
    · intro hfr
      rw [BinanceAdapter.get_alpha_exchange_info, hc, getExchangeInfoCached,
        if_pos hfr, ← hc]
  · intro gw now s t info info2 hc hfr hg
    rw [BinanceAdapter.get_alpha_exchange_info, hc, getExchangeInfoCached,
      if_neg hfr, hg]
  · intro gw t1 t2 info2 hg
    have h1 : BinanceAdapter.get_alpha_exchange_info gw t1 ⟨none⟩ =
        (.ok info2, ⟨some (t1, info2)⟩, [.getExchangeInfo]) := by
      show (match getExchangeInfoCached gw t1 none with
            | (r, cc, calls) => (r, AdapterState.mk cc, calls)) = _
      rw [getExchangeInfoCached, hg]
    rw [h1]
    by_cases hf : t2 - t1 < 30
    · have h2 : BinanceAdapter.get_alpha_exchange_info gw t2
          ⟨some (t1, info2)⟩ = (.ok info2, ⟨some (t1, info2)⟩, []) := by
        show (match getExchangeInfoCached gw t2 (some (t1, info2)) with
              | (r, cc, calls) => (r, AdapterState.mk cc, calls)) = _
        rw [getExchangeInfoCached, if_pos hf]
      rw [h2, if_pos hf]
      simp
    · have h2 : BinanceAdapter.get_alpha_exchange_info gw t2
          ⟨some (t1, info2)⟩ =
          (.ok info2, ⟨some (t2, info2)⟩, [.getExchangeInfo]) := by
        show (match getExchangeInfoCached gw t2 (some (t1, info2)) with
              | (r, cc, calls) => (r, AdapterState.mk cc, calls)) = _
        rw [getExchangeInfoCached, if_neg hf, hg]
      rw [h2, if_neg hf]
      simp

/-- C5 witness: two calls from a cold cache, 10 seconds apart, on a
gateway whose catalog fetch succeeds, issue exactly one network fetch. -/
theorem C5_witness :
    ((BinanceAdapter.get_alpha_exchange_info gwGood 0 ⟨none⟩).2.2 ++
      (BinanceAdapter.get_alpha_exchange_info gwGood 10
        (BinanceAdapter.get_alpha_exchange_info gwGood 0 ⟨none⟩).2.1).2.2).count
      NetCall.getExchangeInfo = 1 := by
  have h := C5_catalog_cache_ttl.2.2 gwGood 0 10 infoGood rfl
  rw [h, if_pos (by decide)]

/-- C9: with the savings feature disabled in configuration, both
transfer directions fail immediately with the feature-disabled error,
change no state, and issue no network call. -/
theorem C9_feature_disabled_no_network :
    ∀ (gw : Gateway) (now : ℚ) (tsMs : ℤ) (s : BnState) (asset : String)
      (amount : ℚ), s.enable_savings = false →
      BinanceExchange.transfer_to_savings gw now tsMs s asset amount =
        (.error .featureDisabled, s, []) ∧
      BinanceExchange.transfer_to_spot gw now tsMs s asset amount =
        (.error .featureDisabled, s, []) := by
  intro gw now tsMs s a amt h
  constructor
  · rw [BinanceExchange.transfer_to_savings, BinanceExchange.transferAlpha, h]
    rfl
  · rw [BinanceExchange.transfer_to_spot, BinanceExchange.transferAlpha, h]
    rfl

/-- C9 witness: the disabled-feature state rejects a transfer without
any network call even on a fully healthy gateway. -/
theorem C9_witness :
    BinanceExchange.transfer_to_savings gwGood 50 0 s0disabled "USDT" 100 =
      (.error .featureDisabled, s0disabled, []) :=
  (C9_feature_disabled_no_network gwGood 50 0 s0disabled "USDT" 100 rfl).1

/-- A successful run of the shared transfer body ends in
`_clear_balance_cache`: both balance caches are reset and the feature
flag and TTL survive. -/
theorem transferAlpha_ok_state (side : String) (gw : Gateway) (now : ℚ)
    (tsMs : ℤ) (s : BnState) (asset : String) (amount : ℚ) (res : OrderResp)
    (s' : BnState) (tr : List NetCall)
    (h : BinanceExchange.transferAlpha side gw now tsMs s asset amount =
      (.ok res, s', tr)) :
    s'.balance_cache_ts = 0 ∧ s'.balance_cache_data = none ∧
      s'.funding_balance_cache_ts = 0 ∧ s'.funding_balance_cache_data = [] ∧
      s'.enable_savings = true ∧ s'.cache_ttl = s.cache_ttl := by
  rcases transferAlpha_cases side gw now tsMs s asset amount with
    ⟨hsav, heq⟩ | ⟨e, s1, c1, hsav, hsym, heq⟩ |
    ⟨info, s1, c1, e, c2, hsav, hsym, htick, heq⟩ |
    ⟨info, s1, c1, pv, c2, hsav, hsym, htick, hp, heq⟩ |
    ⟨info, s1, c1, pv, c2, e, hsav, hsym, htick, hp, hord, heq⟩ |
    ⟨info, s1, c1, pv, c2, res2, hsav, hsym, htick, hp, hord, heq⟩ <;>
    rw [h] at heq
  · exact absurd (congrArg Prod.fst heq) (by simp)
  · exact absurd (congrArg Prod.fst heq) (by simp)
  · exact absurd (congrArg Prod.fst heq) (by simp)
  · exact absurd (congrArg Prod.fst heq) (by simp)
  · exact absurd (congrArg Prod.fst heq) (by simp)
  · obtain ⟨cc, hcc⟩ := get_alpha_symbol_info_state gw now s asset
    rw [hsym] at hcc
    have hs1 : s1 = { s with alpha_exchange_cache := cc } := hcc
    have hs2 : s' = BinanceExchange.clear_balance_cache s1 :=
      congrArg (fun x => x.2.1) heq
    subst hs2
    rw [hs1]
    exact ⟨rfl, rfl, rfl, rfl, hsav, rfl⟩

/-- A failed run of the shared transfer body leaves both balance caches
exactly as they were. -/
theorem transferAlpha_err_state (side : String) (gw : Gateway) (now : ℚ)
    (tsMs : ℤ) (s : BnState) (asset : String) (amount : ℚ) (err : XError)
    (s' : BnState) (tr : List NetCall)
    (h : BinanceExchange.transferAlpha side gw now tsMs s asset amount =
      (.error err, s', tr)) :
    s'.balance_cache_ts = s.balance_cache_ts ∧
      s'.balance_cache_data = s.balance_cache_data ∧
      s'.funding_balance_cache_ts = s.funding_balance_cache_ts ∧
      s'.funding_balance_cache_data = s.funding_balance_cache_data := by
  rcases transferAlpha_cases side gw now tsMs s asset amount with
    ⟨hsav, heq⟩ | ⟨e, s1, c1, hsav, hsym, heq⟩ |
    ⟨info, s1, c1, e, c2, hsav, hsym, htick, heq⟩ |
    ⟨info, s1, c1, pv, c2, hsav, hsym, htick, hp, heq⟩ |
    ⟨info, s1, c1, pv, c2, e, hsav, hsym, htick, hp, hord, heq⟩ |
    ⟨info, s1, c1, pv, c2, res2, hsav, hsym, htick, hp, hord, heq⟩ <;>
    rw [h] at heq
  · have hs : s' = s := congrArg (fun x => x.2.1) heq
    rw [hs]
    exact ⟨rfl, rfl, rfl, rfl⟩
  · obtain ⟨cc, hcc⟩ := get_alpha_symbol_info_state gw now s asset
    rw [hsym] at hcc
    have hs1 : s1 = { s with alpha_exchange_cache := cc } := hcc
    have hs : s' = s1 := congrArg (fun x => x.2.1) heq
    rw [hs, hs1]
    exact ⟨rfl, rfl, rfl, rfl⟩
  · obtain ⟨cc, hcc⟩ := get_alpha_symbol_info_state gw now s asset
    rw [hsym] at hcc
    have hs1 : s1 = { s with alpha_exchange_cache := cc } := hcc
    have hs : s' = s1 := congrArg (fun x => x.2.1) heq
    rw [hs, hs1]
    exact ⟨rfl, rfl, rfl, rfl⟩
  · obtain ⟨cc, hcc⟩ := get_alpha_symbol_info_state gw now s asset
    rw [hsym] at hcc
    have hs1 : s1 = { s with alpha_exchange_cache := cc } := hcc
    have hs : s' = s1 := congrArg (fun x => x.2.1) heq
    rw [hs, hs1]
    exact ⟨rfl, rfl, rfl, rfl⟩
  · obtain ⟨cc, hcc⟩ := get_alpha_symbol_info_state gw now s asset
    rw [hsym] at hcc
    have hs1 : s1 = { s with alpha_exchange_cache := cc } := hcc
    have hs : s' = s1 := congrArg (fun x => x.2.1) heq
    rw [hs, hs1]
    exact ⟨rfl, rfl, rfl, rfl⟩
  · exact absurd (congrArg Prod.fst heq) (by simp)

/-- C3: a transfer whose order submission succeeds resets the balance
caches to the empty state with timestamp 0, so the next
`fetch_funding_balance` on the post-transfer state performs a network
fetch whenever the clock is at or past the TTL (which wall-clock time
always is), no matter how fresh the caches were before; the adapter's
`fetch_funding_balance` is uncached and always fetches. -/
theorem C3_transfer_success_clears_balance_cache :
    (∀ (gw : Gateway) (now : ℚ) (tsMs : ℤ) (s : BnState) (asset : String)
        (amount : ℚ) (res : OrderResp) (s' : BnState) (tr : List NetCall),
      (BinanceExchange.transfer_to_savings gw now tsMs s asset amount =
          (.ok res, s', tr) ∨
        BinanceExchange.transfer_to_spot gw now tsMs s asset amount =
          (.ok res, s', tr)) →
      s'.balance_cache_ts = 0 ∧ s'.balance_cache_data = none ∧
        s'.funding_balance_cache_ts = 0 ∧
        s'.funding_balance_cache_data = [] ∧
        ∀ (gw2 : Gateway) (now2 : ℚ), s'.cache_ttl ≤ now2 →
          (BinanceExchange.fetch_funding_balance gw2 now2 s').2.2 =
            [NetCall.getAlphaAsset]) ∧
    (∀ gw2 : Gateway,
      (BinanceAdapter.fetch_funding_balance gw2).2 =
        [NetCall.getAlphaAsset]) := by
  constructor
  · intro gw now tsMs s asset amount res s' tr h
    have hst : s'.balance_cache_ts = 0 ∧ s'.balance_cache_data = none ∧
        s'.funding_balance_cache_ts = 0 ∧
        s'.funding_balance_cache_data = [] ∧
        s'.enable_savings = true ∧ s'.cache_ttl = s.cache_ttl := by
      rcases h with h | h
      · exact transferAlpha_ok_state "BUY" gw now tsMs s asset amount res s'
          tr h
      · exact transferAlpha_ok_state "SELL" gw now tsMs s asset amount res s'
          tr h
    obtain ⟨h1, h2, h3, h4, h5, h6⟩ := hst
    refine ⟨h1, h2, h3, h4, ?_⟩
    intro gw2 now2 httl
    have hcold : ¬(now2 - s'.funding_balance_cache_ts < s'.cache_ttl) := by
      rw [h3, sub_zero]
      exact not_lt.mpr httl
    rw [BinanceExchange.fetch_funding_balance, h5]
    rw [if_neg (by simp), if_neg hcold]
    rcases hga : gw2.alphaAssets with e | items <;> rfl
  · intro gw2
    rw [BinanceAdapter.fetch_funding_balance]
    rcases hga : gw2.alphaAssets with e | items <;> rfl

/-- C3 witness: after a concrete successful BUY transfer on warm caches,
the funding cache is timestamp-0/empty and the next balance read hits
the network. -/
theorem C3_witness :
    (BinanceExchange.transfer_to_savings gwGood 50 0 s0cached "USDT"
        100).2.1.funding_balance_cache_ts = 0 ∧
    (BinanceExchange.fetch_funding_balance gwDown 60
      (BinanceExchange.transfer_to_savings gwGood 50 0 s0cached "USDT"
        100).2.1).2.2 = [NetCall.getAlphaAsset] := by
  have h := C3_transfer_success_clears_balance_cache.1 gwGood 50 0 s0cached
    "USDT" 100 "filled"
    (BinanceExchange.transfer_to_savings gwGood 50 0 s0cached "USDT" 100).2.1
    (BinanceExchange.transfer_to_savings gwGood 50 0 s0cached "USDT" 100).2.2
    (Or.inl rfl)
  exact ⟨h.2.2.1, h.2.2.2.2 gwDown 60 (by decide)⟩

/-- C10: a transfer that fails at any step leaves both balance caches
(timestamp and data, for `balance_cache` and `funding_balance_cache`)
exactly as they were before the call — only a successful submission
reaches `_clear_balance_cache`. -/
theorem C10_failed_transfer_preserves_balance_caches :
    ∀ (gw : Gateway) (now : ℚ) (tsMs : ℤ) (s : BnState) (asset : String)
      (amount : ℚ) (err : XError) (s' : BnState) (tr : List NetCall),
      (BinanceExchange.transfer_to_savings gw now tsMs s asset amount =
          (.error err, s', tr) ∨
        BinanceExchange.transfer_to_spot gw now tsMs s asset amount =
          (.error err, s', tr)) →
      s'.balance_cache_ts = s.balance_cache_ts ∧
        s'.balance_cache_data = s.balance_cache_data ∧
        s'.funding_balance_cache_ts = s.funding_balance_cache_ts ∧
        s'.funding_balance_cache_data = s.funding_balance_cache_data := by
  intro gw now tsMs s asset amount err s' tr h
  rcases h with h | h
  · exact transferAlpha_err_state "BUY" gw now tsMs s asset amount err s' tr h
  · exact transferAlpha_err_state "SELL" gw now tsMs s asset amount err s' tr
      h

/-- C10 witness: a transfer that dies on the catalog fetch leaves the
warm balance caches of `s0` untouched. -/
theorem C10_witness :
    (BinanceExchange.transfer_to_savings gwDown 100 0 s0 "USDT"
        100).2.1.funding_balance_cache_data =
      s0.funding_balance_cache_data := by
  have h := C10_failed_transfer_preserves_balance_caches gwDown 100 0 s0
    "USDT" 100 (.gateway "boom")
    (BinanceExchange.transfer_to_savings gwDown 100 0 s0 "USDT" 100).2.1
    (BinanceExchange.transfer_to_savings gwDown 100 0 s0 "USDT" 100).2.2
    (Or.inl rfl)
  exact h.2.2.2

/-- C6: when the funding-balance cache is stale and the network fetch
raises, `fetch_funding_balance` returns the previously cached data with
the cache (and whole state) unchanged; `_clear_balance_cache` resets the
cache to timestamp 0 / empty data, after which any read at or past the
TTL performs a fresh fetch. -/
theorem C6_balance_cache_stale_fallback :
    (∀ (gw : Gateway) (now : ℚ) (s : BnState) (e : String),
      s.enable_savings = true →
      ¬(now - s.funding_balance_cache_ts < s.cache_ttl) →
      gw.alphaAssets = .error e →
      BinanceExchange.fetch_funding_balance gw now s =
        (s.funding_balance_cache_data, s, [NetCall.getAlphaAsset])) ∧
    (∀ s : BnState,
      (BinanceExchange.clear_balance_cache s).funding_balance_cache_ts = 0 ∧
      (BinanceExchange.clear_balance_cache s).funding_balance_cache_data =
        [] ∧
      (BinanceExchange.clear_balance_cache s).balance_cache_ts = 0 ∧
      (BinanceExchange.clear_balance_cache s).balance_cache_data = none) ∧
    (∀ (gw : Gateway) (now : ℚ) (s : BnState),
      s.enable_savings = true → s.cache_ttl ≤ now →
      (BinanceExchange.fetch_funding_balance gw now
        (BinanceExchange.clear_balance_cache s)).2.2 =
        [NetCall.getAlphaAsset]) := by
  refine ⟨?_, ?_, ?_⟩
  · intro gw now s e hen hstale hga
    rw [BinanceExchange.fetch_funding_balance, hen]
    rw [if_neg (by simp), if_neg hstale, hga]
  · intro s
    exact ⟨rfl, rfl, rfl, rfl⟩
  · intro gw now s hen httl
    have hcold : ¬(now -
        (BinanceExchange.clear_balance_cache s).funding_balance_cache_ts <
        (BinanceExchange.clear_balance_cache s).cache_ttl) := by
      show ¬(now - 0 < s.cache_ttl)
      rw [sub_zero]
      exact not_lt.mpr httl
    rw [BinanceExchange.fetch_funding_balance]
    rw [show (BinanceExchange.clear_balance_cache s).enable_savings =
      s.enable_savings from rfl, hen]
    rw [if_neg (by simp), if_neg hcold]
    rcases hga : gw.alphaAssets with e | items <;> rfl

/-- C6 witness: with a stale cache (fetched at 50, TTL 60, read at 200)
and a failing gateway, the previous balances come back unchanged. -/
theorem C6_witness :
    BinanceExchange.fetch_funding_balance gwDown 200 s0 =
      ([("USDT", 7)], s0, [NetCall.getAlphaAsset]) := by
  have h := C6_balance_cache_stale_fallback.1 gwDown 200 s0 "boom" rfl
    (by decide) rfl
  exact h

/-- The ticker-price request always issues exactly its one network
call. -/
theorem get_alpha_ticker_price_trace (gw : Gateway) (sym : String) :
    (BinanceExchange.get_alpha_ticker_price gw sym).2 =
      [NetCall.tickerPrice sym] := by
  rw [BinanceExchange.get_alpha_ticker_price]
  rcases ht : gw.tickerPrice sym with e | tk <;> rfl

/-- C7: the price oracle parses the response's price field with absent
and empty fields defaulting to 0 (both adapters share the parser), and
whenever the parsed price is ≤ 0 the transfer body fails with
InvalidPriceError and its trace contains no order placement. -/
theorem C7_invalid_price_aborts :
    (parseTickerPrice ⟨.absent⟩ = 0 ∧ parseTickerPrice ⟨.empty⟩ = 0 ∧
      ∀ q : ℚ, parseTickerPrice ⟨.val q⟩ = q) ∧
    (∀ (gw : Gateway) (sym : String),
      BinanceAdapter.get_alpha_ticker_price gw sym =
        BinanceExchange.get_alpha_ticker_price gw sym) ∧
    (∀ (side : String) (gw : Gateway) (now : ℚ) (tsMs : ℤ) (s : BnState)
        (asset : String) (amount : ℚ) (info : SymbolInfo) (s1 : BnState)
        (c1 : List NetCall) (tk : Ticker),
      s.enable_savings = true →
      BinanceExchange.get_alpha_symbol_info gw now s asset =
        (.ok info, s1, c1) →
      gw.tickerPrice info.symbol = .ok tk →
      parseTickerPrice tk ≤ 0 →
      BinanceExchange.transferAlpha side gw now tsMs s asset amount =
        (.error (.invalidPrice info.symbol), s1,
          c1 ++ [NetCall.tickerPrice info.symbol]) ∧
      ∀ (b q sd qt pr : String) (t : ℤ) (r : ℕ),
        NetCall.placeOrder b q sd qt pr t r ∉
          (BinanceExchange.transferAlpha side gw now tsMs s asset
            amount).2.2) := by
  refine ⟨⟨rfl, rfl, fun q => rfl⟩, fun gw sym => rfl, ?_⟩
  intro side gw now tsMs s asset amount info s1 c1 tk hen hsym htk hple
  have ht2 : BinanceExchange.get_alpha_ticker_price gw info.symbol =
      (.ok (parseTickerPrice tk), [NetCall.tickerPrice info.symbol]) := by
    rw [BinanceExchange.get_alpha_ticker_price, htk]
  have hbody : BinanceExchange.transferAlpha side gw now tsMs s asset amount =
      (.error (.invalidPrice info.symbol), s1,
        c1 ++ [NetCall.tickerPrice info.symbol]) := by
    rw [BinanceExchange.transferAlpha, hen]
    rw [show (!true) = false from rfl, if_neg (by simp)]
    rw [hsym]
    dsimp only
    rw [ht2]
    dsimp only
    rw [if_pos hple]
  refine ⟨hbody, ?_⟩
  rw [hbody]
  intro b q sd qt pr t r hmem
  rcases get_alpha_symbol_info_trace gw now s asset with h0 | h0 <;>
    rw [hsym] at h0 <;>
    (have hc1 : c1 = _ := h0) <;>
    subst hc1 <;>
    simp at hmem

/-- C7 witness: an empty price field parses to 0 and a concrete BUY
transfer against it aborts with InvalidPriceError after the ticker
call, never reaching order placement. -/
theorem C7_witness :
    BinanceExchange.transferAlpha "BUY" gwZeroPrice 50 0 s0cached "USDT"
        100 =
      (.error (.invalidPrice "ALPHAUSDT"), s0cached,
        [NetCall.tickerPrice "ALPHAUSDT"]) := by
  have h := (C7_invalid_price_aborts.2.2 "BUY" gwZeroPrice 50 0 s0cached
    "USDT" 100 symUSDT s0cached [] ⟨.empty⟩ rfl (by rfl) rfl (by decide)).1
  simpa using h

/-- The adapter's exchange-info getter issues no request (cache hit) or
exactly one. -/
theorem adapter_get_info_trace (gw : Gateway) (now : ℚ) (s : AdapterState) :
    (BinanceAdapter.get_alpha_exchange_info gw now s).2.2 = [] ∨
      (BinanceAdapter.get_alpha_exchange_info gw now s).2.2 =
        [NetCall.getExchangeInfo] := by
  have h := getExchangeInfoCached_trace gw now s.alpha_exchange_cache
  rw [BinanceAdapter.get_alpha_exchange_info]
  rcases hx : getExchangeInfoCached gw now s.alpha_exchange_cache
    with ⟨r, cc, calls⟩
  rw [hx] at h
  exact h

/-- The trace of `_build_alpha_order` is at most one exchange-info
request followed by at most one ticker request. -/
theorem build_alpha_order_trace (gw : Gateway) (now : ℚ) (s : AdapterState)
    (quote : String) (amount : ℚ) :
    ∃ a b,
      (BinanceAdapter.build_alpha_order gw now s quote amount).2.2 =
        a ++ b ∧
      (a = [] ∨ a = [NetCall.getExchangeInfo]) ∧
      (b = [] ∨ ∃ sym, b = [NetCall.tickerPrice sym]) := by
  have ha0 := adapter_get_info_trace gw now s
  rcases build_alpha_order_cases gw now s quote amount with
    ⟨e, s1, c1, hx, heq⟩ | ⟨info, s1, c1, hx, hf, heq⟩ |
    ⟨info, s1, c1, sym, e, c2, hx, hf, ht, heq⟩ |
    ⟨info, s1, c1, sym, pv, c2, hx, hf, ht, hp, heq⟩ |
    ⟨info, s1, c1, sym, pv, c2, hx, hf, ht, hp, heq⟩ <;>
    rw [heq] <;> rw [hx] at ha0 <;> (have ha : c1 = _ ∨ c1 = _ := ha0)
  · exact ⟨c1, [], (List.append_nil c1).symm, ha, Or.inl rfl⟩
  · exact ⟨c1, [], (List.append_nil c1).symm, ha, Or.inl rfl⟩
  · have ht2 : BinanceExchange.get_alpha_ticker_price gw sym.symbol =
        (.error e, c2) := ht
    have hb0 := get_alpha_ticker_price_trace gw sym.symbol
    rw [ht2] at hb0
    have hb : c2 = [NetCall.tickerPrice sym.symbol] := hb0
    exact ⟨c1, c2, rfl, ha, Or.inr ⟨sym.symbol, hb⟩⟩
  · have ht2 : BinanceExchange.get_alpha_ticker_price gw sym.symbol =
        (.ok pv, c2) := ht
    have hb0 := get_alpha_ticker_price_trace gw sym.symbol
    rw [ht2] at hb0
    have hb : c2 = [NetCall.tickerPrice sym.symbol] := hb0
    exact ⟨c1, c2, rfl, ha, Or.inr ⟨sym.symbol, hb⟩⟩
  · have ht2 : BinanceExchange.get_alpha_ticker_price gw sym.symbol =
        (.ok pv, c2) := ht
    have hb0 := get_alpha_ticker_price_trace gw sym.symbol
    rw [ht2] at hb0
    have hb : c2 = [NetCall.tickerPrice sym.symbol] := hb0
    exact ⟨c1, c2, rfl, ha, Or.inr ⟨sym.symbol, hb⟩⟩

/-- No network request is repeated inside one run of the
`BinanceExchange` transfer body: each endpoint is hit at most once. -/
theorem bn_transferAlpha_trace_nodup (side : String) (gw : Gateway)
    (now : ℚ) (tsMs : ℤ) (s : BnState) (asset : String) (amount : ℚ) :
    (BinanceExchange.transferAlpha side gw now tsMs s asset
      amount).2.2.Nodup := by
  have ha0 := get_alpha_symbol_info_trace gw now s asset
  rcases transferAlpha_cases side gw now tsMs s asset amount with
    ⟨hsav, heq⟩ | ⟨e, s1, c1, hsav, hsym, heq⟩ |
    ⟨info, s1, c1, e, c2, hsav, hsym, htick, heq⟩ |
    ⟨info, s1, c1, pv, c2, hsav, hsym, htick, hp, heq⟩ |
    ⟨info, s1, c1, pv, c2, e, hsav, hsym, htick, hp, hord, heq⟩ |
    ⟨info, s1, c1, pv, c2, res2, hsav, hsym, htick, hp, hord, heq⟩ <;>
    rw [heq]
  · simp
  · rw [hsym] at ha0
    have ha : c1 = [] ∨ c1 = [NetCall.getExchangeInfo] := ha0
    rcases ha with rfl | rfl <;> simp
  · rw [hsym] at ha0
    have ha : c1 = [] ∨ c1 = [NetCall.getExchangeInfo] := ha0
    have hb0 := get_alpha_ticker_price_trace gw info.symbol
    rw [htick] at hb0
    have hb : c2 = [NetCall.tickerPrice info.symbol] := hb0
    rcases ha with rfl | rfl <;> rw [hb] <;> simp
  · rw [hsym] at ha0
    have ha : c1 = [] ∨ c1 = [NetCall.getExchangeInfo] := ha0
    have hb0 := get_alpha_ticker_price_trace gw info.symbol
    rw [htick] at hb0
    have hb : c2 = [NetCall.tickerPrice info.symbol] := hb0
    rcases ha with rfl | rfl <;> rw [hb] <;> simp
  · rw [hsym] at ha0
    have ha : c1 = [] ∨ c1 = [NetCall.getExchangeInfo] := ha0
    have hb0 := get_alpha_ticker_price_trace gw info.symbol
    rw [htick] at hb0
    have hb : c2 = [NetCall.tickerPrice info.symbol] := hb0
    rcases ha with rfl | rfl <;> rw [hb] <;>
      simp [BinanceExchange.alphaOrderCall]
  · rw [hsym] at ha0
    have ha : c1 = [] ∨ c1 = [NetCall.getExchangeInfo] := ha0
    have hb0 := get_alpha_ticker_price_trace gw info.symbol
    rw [htick] at hb0
    have hb : c2 = [NetCall.tickerPrice info.symbol] := hb0
    rcases ha with rfl | rfl <;> rw [hb] <;>
      simp [BinanceExchange.alphaOrderCall]

/-- No network request is repeated inside one run of the adapter's
transfer body either. -/
theorem adapter_transferAlpha_trace_nodup (side : String) (gw : Gateway)
    (now : ℚ) (tsMs : ℤ) (s : AdapterState) (asset : String) (amount : ℚ) :
    (BinanceAdapter.transferAlpha side gw now tsMs s asset
      amount).2.2.Nodup := by
  obtain ⟨a, b, hab, ha, hb⟩ := build_alpha_order_trace gw now s asset amount
  rcases adapter_transferAlpha_cases side gw now tsMs s asset amount with
    ⟨e, s1, c1, hx, heq⟩ | ⟨b2, q2, pr, qt, s1, c1, e, hx, hord, heq⟩ |
    ⟨b2, q2, pr, qt, s1, c1, r2, hx, hord, heq⟩ <;>
    rw [heq] <;> rw [hx] at hab <;>
    (have hc1 : c1 = a ++ b := hab) <;> subst hc1 <;>
    rcases ha with rfl | rfl <;>
    (rcases hb with rfl | ⟨sym, rfl⟩) <;> simp

/-- C4 counterexample: on a gateway whose catalog fetch raises,
`BinanceAdapter.transfer_to_funding` returns the default value `False`
— its return type cannot even carry the underlying error, so the error
is not propagated to the caller, contradicting the claim for the
adapter's transfer methods. -/
theorem C4_counterexample :
    BinanceAdapter.transfer_to_funding gwDown 0 0 ⟨none⟩ "USDT" 100 =
      (false, ⟨none⟩, [NetCall.getExchangeInfo]) := rfl

/-- C4 amended: `BinanceExchange.transfer_to_savings` /
`transfer_to_spot` propagate the underlying error unmodified from every
failure point — catalog fetch from a cold cache, catalog refetch from a
stale cache, ticker fetch, and order placement — and never retry (no
endpoint is called twice in one run); the adapter's
`transfer_to_funding` / `transfer_to_spot` also never retry, but catch
every failure — of the order build and of the order placement alike —
and return `False` instead of propagating it. -/
theorem C4_amended_error_propagation_no_retry :
    (∀ (gw : Gateway) (now : ℚ) (tsMs : ℤ) (s : BnState) (asset : String)
        (amount : ℚ) (e : String),
      s.enable_savings = true → s.alpha_exchange_cache = none →
      gw.exchangeInfo = .error e →
      BinanceExchange.transfer_to_savings gw now tsMs s asset amount =
        (.error (.gateway e), s, [NetCall.getExchangeInfo]) ∧
      BinanceExchange.transfer_to_spot gw now tsMs s asset amount =
        (.error (.gateway e), s, [NetCall.getExchangeInfo])) ∧
    (∀ (gw : Gateway) (now : ℚ) (tsMs : ℤ) (s : BnState) (asset : String)
        (amount : ℚ) (t : ℚ) (info : ExchangeInfo) (e : String),
      s.enable_savings = true → s.alpha_exchange_cache = some (t, info) →
      ¬(now - t < 30) → gw.exchangeInfo = .error e →
      BinanceExchange.transfer_to_savings gw now tsMs s asset amount =
        (.error (.gateway e), s, [NetCall.getExchangeInfo]) ∧
      BinanceExchange.transfer_to_spot gw now tsMs s asset amount =
        (.error (.gateway e), s, [NetCall.getExchangeInfo])) ∧
    (∀ (side : String) (gw : Gateway) (now : ℚ) (tsMs : ℤ) (s : BnState)
        (asset : String) (amount : ℚ) (info : SymbolInfo) (s1 : BnState)
        (c1 : List NetCall) (e : String),
      s.enable_savings = true →
      BinanceExchange.get_alpha_symbol_info gw now s asset =
        (.ok info, s1, c1) →
      gw.tickerPrice info.symbol = .error e →
      BinanceExchange.transferAlpha side gw now tsMs s asset amount =
        (.error (.gateway e), s1,
          c1 ++ [NetCall.tickerPrice info.symbol])) ∧
    (∀ (side : String) (gw : Gateway) (now : ℚ) (tsMs : ℤ) (s : BnState)
        (asset : String) (amount : ℚ) (info : SymbolInfo) (s1 : BnState)
        (c1 : List NetCall) (pv : ℚ) (c2 : List NetCall) (e : String),
      s.enable_savings = true →
      BinanceExchange.get_alpha_symbol_info gw now s asset =
        (.ok info, s1, c1) →
      BinanceExchange.get_alpha_ticker_price gw info.symbol = (.ok pv, c2) →
      ¬pv ≤ 0 →
      gw.placeOrder
          (BinanceExchange.alphaOrderCall info asset side amount pv tsMs) =
        .error e →
      BinanceExchange.transferAlpha side gw now tsMs s asset amount =
        (.error (.gateway e), s1,
          c1 ++ c2 ++
            [BinanceExchange.alphaOrderCall info asset side amount pv
              tsMs])) ∧
    (∀ (side : String) (gw : Gateway) (now : ℚ) (tsMs : ℤ) (s : BnState)
        (asset : String) (amount : ℚ),
      (BinanceExchange.transferAlpha side gw now tsMs s asset
        amount).2.2.Nodup) ∧
    (∀ (side : String) (gw : Gateway) (now : ℚ) (tsMs : ℤ)
        (s : AdapterState) (asset : String) (amount : ℚ),
      (BinanceAdapter.transferAlpha side gw now tsMs s asset
        amount).2.2.Nodup) ∧
    (∀ (gw : Gateway) (now : ℚ) (tsMs : ℤ) (s : AdapterState)
        (asset : String) (amount : ℚ) (e : XError) (s1 : AdapterState)
        (c1 : List NetCall),
      BinanceAdapter.build_alpha_order gw now s asset amount =
        (.error e, s1, c1) →
      BinanceAdapter.transfer_to_funding gw now tsMs s asset amount =
        (false, s1, c1) ∧
      BinanceAdapter.transfer_to_spot gw now tsMs s asset amount =
        (false, s1, c1)) ∧
    (∀ (gw : Gateway) (now : ℚ) (tsMs : ℤ) (s : AdapterState)
        (asset : String) (amount : ℚ) (b q pr qt : String)
        (s1 : AdapterState) (c1 : List NetCall) (e : String),
      BinanceAdapter.build_alpha_order gw now s asset amount =
        (.ok (b, q, pr, qt), s1, c1) →
      (gw.placeOrder (.placeOrder b q "BUY" qt pr tsMs 5000) = .error e →
        BinanceAdapter.transfer_to_funding gw now tsMs s asset amount =
          (false, s1,
            c1 ++ [NetCall.placeOrder b q "BUY" qt pr tsMs 5000])) ∧
      (gw.placeOrder (.placeOrder b q "SELL" qt pr tsMs 5000) = .error e →
        BinanceAdapter.transfer_to_spot gw now tsMs s asset amount =
          (false, s1,
            c1 ++ [NetCall.placeOrder b q "SELL" qt pr tsMs 5000]))) := by
  refine ⟨?_, ?_, ?_, ?_, bn_transferAlpha_trace_nodup,
    adapter_transferAlpha_trace_nodup, ?_, ?_⟩
  · intro gw now tsMs s asset amount e hen hcache hge
    have hsym : BinanceExchange.get_alpha_symbol_info gw now s asset =
        (.error (.gateway e), s, [NetCall.getExchangeInfo]) := by
      rw [BinanceExchange.get_alpha_symbol_info, hcache, getExchangeInfoCached,
        hge]
      dsimp only
      rw [← hcache]
    constructor
    · rw [BinanceExchange.transfer_to_savings, BinanceExchange.transferAlpha,
        hen, show (!true) = false from rfl, if_neg (by simp), hsym]
    · rw [BinanceExchange.transfer_to_spot, BinanceExchange.transferAlpha,
        hen, show (!true) = false from rfl, if_neg (by simp), hsym]
  · intro gw now tsMs s asset amount t info e hen hcache hstale hge
    have hsym : BinanceExchange.get_alpha_symbol_info gw now s asset =
        (.error (.gateway e), s, [NetCall.getExchangeInfo]) := by
      rw [BinanceExchange.get_alpha_symbol_info, hcache, getExchangeInfoCached,
        if_neg hstale, hge]
      dsimp only
      rw [← hcache]
    constructor
    · rw [BinanceExchange.transfer_to_savings, BinanceExchange.transferAlpha,
        hen, show (!true) = false from rfl, if_neg (by simp), hsym]
    · rw [BinanceExchange.transfer_to_spot, BinanceExchange.transferAlpha,
        hen, show (!true) = false from rfl, if_neg (by simp), hsym]
  · intro side gw now tsMs s asset amount info s1 c1 e hen hsym htk
    have ht2 : BinanceExchange.get_alpha_ticker_price gw info.symbol =
        (.error (.gateway e), [NetCall.tickerPrice info.symbol]) := by
      rw [BinanceExchange.get_alpha_ticker_price, htk]
    rw [BinanceExchange.transferAlpha, hen, show (!true) = false from rfl,
      if_neg (by simp), hsym]
    dsimp only
    rw [ht2]
  · intro side gw now tsMs s asset amount info s1 c1 pv c2 e hen hsym htick
      hp hord
    rw [BinanceExchange.transferAlpha, hen, show (!true) = false from rfl,
      if_neg (by simp), hsym]
    dsimp only
    rw [htick]
    dsimp only
    rw [if_neg hp, hord]
  · intro gw now tsMs s asset amount e s1 c1 h
    constructor
    · have hbody : BinanceAdapter.transfer_to_funding gw now tsMs s asset
          amount =
          match BinanceAdapter.build_alpha_order gw now s asset amount with
          | (.error _, s1, c1) => (false, s1, c1)
          | (.ok (b, q, pr, qt), s1, c1) =>
            match gw.placeOrder (.placeOrder b q "BUY" qt pr tsMs 5000) with
            | .ok _ =>
              (true, s1, c1 ++ [.placeOrder b q "BUY" qt pr tsMs 5000])
            | .error _ =>
              (false, s1, c1 ++ [.placeOrder b q "BUY" qt pr tsMs 5000]) :=
        rfl
      rw [h] at hbody
      exact hbody
    · have hbody : BinanceAdapter.transfer_to_spot gw now tsMs s asset
          amount =
          match BinanceAdapter.build_alpha_order gw now s asset amount with
          | (.error _, s1, c1) => (false, s1, c1)
          | (.ok (b, q, pr, qt), s1, c1) =>
            match gw.placeOrder (.placeOrder b q "SELL" qt pr tsMs 5000) with
            | .ok _ =>
              (true, s1, c1 ++ [.placeOrder b q "SELL" qt pr tsMs 5000])
            | .error _ =>
              (false, s1, c1 ++ [.placeOrder b q "SELL" qt pr tsMs 5000]) :=
        rfl
      rw [h] at hbody
      exact hbody
  · intro gw now tsMs s asset amount b q pr qt s1 c1 e hb
    constructor
    · intro hord
      have hbody : BinanceAdapter.transfer_to_funding gw now tsMs s asset
          amount =
          match BinanceAdapter.build_alpha_order gw now s asset amount with
          | (.error _, s1, c1) => (false, s1, c1)
          | (.ok (b, q, pr, qt), s1, c1) =>
            match gw.placeOrder (.placeOrder b q "BUY" qt pr tsMs 5000) with
            | .ok _ =>
              (true, s1, c1 ++ [.placeOrder b q "BUY" qt pr tsMs 5000])
            | .error _ =>
              (false, s1, c1 ++ [.placeOrder b q "BUY" qt pr tsMs 5000]) :=
        rfl
      rw [hb] at hbody
      dsimp only at hbody
      rw [hord] at hbody
      exact hbody
    · intro hord
      have hbody : BinanceAdapter.transfer_to_spot gw now tsMs s asset
          amount =
          match BinanceAdapter.build_alpha_order gw now s asset amount with
          | (.error _, s1, c1) => (false, s1, c1)
          | (.ok (b, q, pr, qt), s1, c1) =>
            match gw.placeOrder (.placeOrder b q "SELL" qt pr tsMs 5000) with
            | .ok _ =>
              (true, s1, c1 ++ [.placeOrder b q "SELL" qt pr tsMs 5000])
            | .error _ =>
              (false, s1, c1 ++ [.placeOrder b q "SELL" qt pr tsMs 5000]) :=
        rfl
      rw [hb] at hbody
      dsimp only at hbody
      rw [hord] at hbody
      exact hbody

/-- C4 witness: a concrete catalog-fetch failure is propagated by
`BinanceExchange.transfer_to_savings` as the very gateway error, with a
single network call and unchanged state. -/
theorem C4_witness :
    BinanceExchange.transfer_to_savings gwDown 0 0 s0 "USDT" 100 =
      (.error (.gateway "boom"), s0, [NetCall.getExchangeInfo]) :=
  (C4_amended_error_propagation_no_retry.1 gwDown 0 0 s0 "USDT" 100 "boom"
    rfl rfl rfl).1

/-- Digit characters of values below ten are decimal digits. -/
theorem digitChar_isDigit : ∀ m, m < 10 → (Nat.digitChar m).isDigit = true :=
  by decide

/-- Every character the integer renderer emits is a decimal digit. -/
theorem natDigitsAux_digits (fuel : ℕ) :
    ∀ (n : ℕ), ∀ c ∈ natDigitsAux n fuel, c.isDigit = true := by
  induction fuel with
  | zero =>
    intro n c hc
    simp [natDigitsAux] at hc
  | succ f ih =>
    intro n c hc
    rw [natDigitsAux] at hc
    by_cases h : n < 10
    · rw [if_pos h] at hc
      simp only [List.mem_singleton] at hc
      subst hc
      exact digitChar_isDigit n h
    · rw [if_neg h] at hc
      rcases List.mem_append.mp hc with h1 | h1
      · exact ih _ c h1
      · simp only [List.mem_singleton] at h1
        subst h1
        exact digitChar_isDigit _ (Nat.mod_lt _ (by omega))

/-- Every character of `natDigits` is a decimal digit. -/
theorem natDigits_digits (n : ℕ) : ∀ c ∈ natDigits n, c.isDigit = true :=
  natDigitsAux_digits (n + 1) n

/-- The fraction renderer emits exactly `p` characters. -/
theorem padDigits_length (p : ℕ) : ∀ r, (padDigits r p).length = p := by
  induction p with
  | zero => intro r; rfl
  | succ p ih =>
    intro r
    rw [padDigits, List.length_append, ih]
    rfl

/-- Every character the fraction renderer emits is a decimal digit. -/
theorem padDigits_digits (p : ℕ) :
    ∀ r, ∀ c ∈ padDigits r p, c.isDigit = true := by
  induction p with
  | zero =>
    intro r c hc
    simp [padDigits] at hc
  | succ p ih =>
    intro r c hc
    rw [padDigits] at hc
    rcases List.mem_append.mp hc with h1 | h1
    · exact ih _ c h1
    · simp only [List.mem_singleton] at h1
      subst h1
      exact digitChar_isDigit _ (Nat.mod_lt _ (by omega))

/-- With positive precision the rendering splits as
`integer part ++ '.' :: fraction part`. -/
theorem renderFixed_structure (z : ℤ) (p : ℕ) (hp : p ≠ 0) :
    renderFixed z p =
      ((if z < 0 then ['-'] else []) ++ natDigits (z.natAbs / 10 ^ p)) ++
        '.' :: padDigits (z.natAbs % 10 ^ p) p := by
  rw [renderFixed, if_neg hp, List.append_assoc]

/-- Every character the formatter emits is a digit, a minus sign, or a
decimal point. -/
theorem formatChars_chars (v : ℚ) (p : ℕ) :
    ∀ c ∈ formatChars v p, c.isDigit = true ∨ c = '-' ∨ c = '.' := by
  intro c hc
  rw [formatChars, renderFixed] at hc
  rcases List.mem_append.mp hc with h1 | h1
  · refine Or.inr (Or.inl ?_)
    by_cases hz : roundHalfEven (v * 10 ^ p) < 0
    · rw [if_pos hz] at h1
      simpa using h1
    · rw [if_neg hz] at h1
      simp at h1
  · by_cases hp : p = 0
    · rw [if_pos hp] at h1
      exact Or.inl (natDigits_digits _ _ h1)
    · rw [if_neg hp] at h1
      rcases List.mem_append.mp h1 with h2 | h2
      · exact Or.inl (natDigits_digits _ _ h2)
      · rcases List.mem_cons.mp h2 with rfl | h3
        · exact Or.inr (Or.inr rfl)
        · exact Or.inl (padDigits_digits _ _ _ h3)

/-- C8: the formatter renders fixed point with exactly `precision`
digits after the single decimal point (and no point at all when the
precision is 0), never emits exponent notation, agrees between the two
source classes, satisfies the spec's concrete examples, and the
precision read from instrument metadata defaults to 8 when absent. -/
theorem C8_fixed_point_formatting :
    (∀ (v : ℚ) (p : ℕ), p ≠ 0 →
      ∃ pre frac, (format_alpha_value v p).data = pre ++ '.' :: frac ∧
        frac.length = p ∧ '.' ∉ pre ∧ '.' ∉ frac) ∧
    (∀ v : ℚ, '.' ∉ (format_alpha_value v 0).data) ∧
    (∀ (v : ℚ) (p : ℕ), 'e' ∉ (format_alpha_value v p).data ∧
      'E' ∉ (format_alpha_value v p).data) ∧
    format_alpha_value (1/3) 8 = "0.33333333" ∧
    format_alpha_value 2 0 = "2" ∧
    (∀ (v : ℚ) (p : ℕ), format_with_precision v p = format_alpha_value v p) ∧
    (∀ info : SymbolInfo, info.quantityPrecision = none →
      getQuantityPrecision info = 8) ∧
    (∀ info : SymbolInfo, info.pricePrecision = none →
      getPricePrecision info = 8) := by
  refine ⟨?_, ?_, ?_, by decide, by decide, fun v p => rfl, ?_, ?_⟩
  · intro v p hp
    refine ⟨(if roundHalfEven (v * 10 ^ p) < 0 then ['-'] else []) ++
      natDigits ((roundHalfEven (v * 10 ^ p)).natAbs / 10 ^ p),
      padDigits ((roundHalfEven (v * 10 ^ p)).natAbs % 10 ^ p) p,
      renderFixed_structure _ p hp, padDigits_length p _, ?_, ?_⟩
    · intro hmem
      rcases List.mem_append.mp hmem with h1 | h1
      · by_cases hz : roundHalfEven (v * 10 ^ p) < 0
        · rw [if_pos hz] at h1
          simp at h1
        · rw [if_neg hz] at h1
          simp at h1
      · exact absurd (natDigits_digits _ _ h1) (by decide)
    · intro hmem
      exact absurd (padDigits_digits _ _ _ hmem) (by decide)
  · intro v hmem
    rcases formatChars_chars v 0 '.' hmem with h | h | h
    · exact absurd h (by decide)
    · exact absurd h (by decide)
    · have hmem2 : '.' ∈ formatChars v 0 := hmem
      rw [formatChars, renderFixed] at hmem2
      rcases List.mem_append.mp hmem2 with h1 | h1
      · by_cases hz : roundHalfEven (v * 10 ^ 0) < 0
        · rw [if_pos hz] at h1
          simp at h1
        · rw [if_neg hz] at h1
          simp at h1
      · rw [if_pos rfl] at h1
        exact absurd (natDigits_digits _ _ h1) (by decide)
  · intro v p
    constructor <;> intro hmem <;>
      rcases formatChars_chars v p _ hmem with h | h | h <;>
      exact absurd h (by decide)
  · intro info h
    rw [getQuantityPrecision, h]
    rfl
  · intro info h
    rw [getPricePrecision, h]
    rfl

/-- C8 witness: a concrete positive-precision value splits at a single
decimal point with exactly three fraction digits, and metadata without
a quantityPrecision key yields the default precision 8. -/
theorem C8_witness :
    (∃ pre frac, (format_alpha_value (mkRat 1 2) 3).data =
        pre ++ '.' :: frac ∧ frac.length = 3 ∧ '.' ∉ pre ∧ '.' ∉ frac) ∧
    getQuantityPrecision ⟨"S", "B", "Q", "TRADING", none, none⟩ = 8 :=
  ⟨C8_fixed_point_formatting.1 (mkRat 1 2) 3 (by decide),
   C8_fixed_point_formatting.2.2.2.2.2.2.1 ⟨"S", "B", "Q", "TRADING", none,
     none⟩ rfl⟩

/-- C2: building an order for 100 USDT at price 2.5 against an
instrument with quantityPrecision 4 and pricePrecision 2 yields
quantity `"40.0000"` and price `"2.50"` (in the adapter's
`(base, quote, price, quantity)` tuple and in the placed order of
`transfer_to_savings`), and in every successful build the quantity
string is the formatted `amount / price` at the instrument's quantity
precision. -/
theorem C2_build_order_quantity_price :
    BinanceAdapter.build_alpha_order gwGood 50 ⟨some (40, infoGood)⟩ "USDT"
        100 =
      (.ok ("ALPHA", "USDT", "2.50", "40.0000"), ⟨some (40, infoGood)⟩,
        [NetCall.tickerPrice "ALPHAUSDT"]) ∧
    BinanceExchange.transfer_to_savings gwGood 50 0 s0cached "USDT" 100 =
      (.ok "filled", BinanceExchange.clear_balance_cache s0cached,
        [NetCall.tickerPrice "ALPHAUSDT",
          NetCall.placeOrder "ALPHA" "USDT" "BUY" "40.0000" "2.50" 0 5000]) ∧
    (∀ (gw : Gateway) (now : ℚ) (s : AdapterState) (q : String) (amount : ℚ)
        (b qa pstr qstr : String) (s' : AdapterState) (tr : List NetCall),
      BinanceAdapter.build_alpha_order gw now s q amount =
        (.ok (b, qa, pstr, qstr), s', tr) →
      ∃ sym pv, ¬pv ≤ 0 ∧ b = sym.baseAsset ∧ qa = q ∧
        pstr = format_with_precision pv (getPricePrecision sym) ∧
        qstr = format_with_precision (amount / pv)
          (getQuantityPrecision sym)) := by
  refine ⟨rfl, rfl, ?_⟩
  intro gw now s q amount b qa pstr qstr s' tr h
  rcases build_alpha_order_cases gw now s q amount with
    ⟨e, s1, c1, hx, heq⟩ | ⟨info, s1, c1, hx, hf, heq⟩ |
    ⟨info, s1, c1, sym, e, c2, hx, hf, ht, heq⟩ |
    ⟨info, s1, c1, sym, pv, c2, hx, hf, ht, hp, heq⟩ |
    ⟨info, s1, c1, sym, pv, c2, hx, hf, ht, hp, heq⟩ <;>
    rw [h] at heq
  · exact absurd (congrArg Prod.fst heq) (by simp)
  · exact absurd (congrArg Prod.fst heq) (by simp)
  · exact absurd (congrArg Prod.fst heq) (by simp)
  · exact absurd (congrArg Prod.fst heq) (by simp)
  · have hfst := congrArg Prod.fst heq
    simp only [Prod.fst] at hfst
    obtain ⟨h1, h2, h3, h4⟩ :
        b = sym.baseAsset ∧ qa = q ∧
          pstr = format_with_precision pv (getPricePrecision sym) ∧
          qstr = format_with_precision (amount / pv)
            (getQuantityPrecision sym) := by
      simpa using hfst
    exact ⟨sym, pv, hp, h1, h2, h3, h4⟩

/-- C2 witness: the general quantity law instantiated on the concrete
build of 100 USDT at price 2.5. -/
theorem C2_witness :
    ∃ sym pv, ¬pv ≤ 0 ∧ "ALPHA" = sym.baseAsset ∧ "USDT" = "USDT" ∧
      "2.50" = format_with_precision pv (getPricePrecision sym) ∧
      "40.0000" = format_with_precision (100 / pv)
        (getQuantityPrecision sym) :=
  C2_build_order_quantity_price.2.2 gwGood 50 ⟨some (40, infoGood)⟩ "USDT"
    100 "ALPHA" "USDT" "2.50" "40.0000" ⟨some (40, infoGood)⟩
    [NetCall.tickerPrice "ALPHAUSDT"] C2_build_order_quantity_price.1

end ClaimsAndWitnesses
